import Mathlib

/-!
Shallow embedding of the git-wrapped repository's core:
`src/api/github.ts` (pagination, error mapping) and
`src/services/insightsEngine.ts` (the insights computation engine).

Conventions of the embedding:
* JS numbers holding counts are `Nat`; values produced by `Math.round` of a
  ratio are computed exactly over `ℚ` with Mathlib's `round` (which, like JS
  `Math.round`, is `⌊x + 1/2⌋`).  IEEE-754 double rounding of intermediate
  ratios is not modelled; all inputs of interest are far from the half-way
  discrepancy region.
* `new Date(...)` values are modelled by the projections the code reads:
  calendar-day dates as year/month/day triples (month 0-11, as in JS), event
  timestamps as the (year, month, weekday, hour) tuple the engine reads.
  Local time zone = UTC.
* JS `x || y` on numbers (0 is falsy) and on nullable values is modelled
  explicitly by `orOptNat` / JS truthiness tests.
* `Array.prototype.sort` is a stable sort; any stable sort by the same
  comparator produces the same list, so it is modelled by a stable insertion
  sort `jsSortBy`.
* The network is modelled as an oracle `pages : Nat → HttpResp α` giving the
  raw response of each page request; the page loops additionally return the
  number of page requests issued (the `...C` variants), which the source
  performs but does not return.
-/

namespace GitWrapped

/-- `GitHubApiError` from `src/api/github.ts` (message, HTTP status, code). -/
structure GitHubApiError where
  message : String
  status : Nat
  code : Option String
deriving Repr, DecidableEq

/-- A raw HTTP page response: status plus the JSON-decoded list body. -/
structure HttpResp (α : Type) where
  status : Nat
  body : List α

/-- `fetchGitHub` from `src/api/github.ts`: maps a response to the body when
`response.ok` (2xx), otherwise throws `NOT_FOUND` on 404, `RATE_LIMITED` on
403, and a generic `GitHubApiError` otherwise.  (The rate-limit header
bookkeeping only feeds the human-readable message and is not modelled.) -/
def fetchGitHub {α : Type} (resp : HttpResp α) : Except GitHubApiError (List α) :=
  if 200 ≤ resp.status ∧ resp.status < 300 then .ok resp.body
  else if resp.status = 404 then .error ⟨"User not found", 404, some "NOT_FOUND"⟩
  else if resp.status = 403 then .error ⟨"API rate limit exceeded", 403, some "RATE_LIMITED"⟩
  else .error ⟨"GitHub API error", resp.status, none⟩

/-- The `while` loop of `fetchUserRepos`: accumulate pages while fewer than
`maxRepos` items are collected; an empty page or a short page (fewer than
`perPage` items) ends the loop; any page error propagates.  Also counts the
page requests issued. -/
def fetchUserReposGo {α : Type} (pages : Nat → HttpResp α) (maxRepos perPage : Nat)
    (page : Nat) (acc : List α) (reqs : Nat) : Except GitHubApiError (List α × Nat) :=
  if acc.length < maxRepos then
    match fetchGitHub (pages page) with
    | .error e => .error e
    | .ok pageRepos =>
      if h : pageRepos.isEmpty then .ok (acc, reqs + 1)
      else if pageRepos.length < perPage then .ok (acc ++ pageRepos, reqs + 1)
      else fetchUserReposGo pages maxRepos perPage (page + 1) (acc ++ pageRepos) (reqs + 1)
  else .ok (acc, reqs)
termination_by maxRepos - acc.length
decreasing_by
  simp only [List.isEmpty_iff] at h
  have : 0 < pageRepos.length := List.length_pos.mpr h
  simp only [List.length_append]
  omega

/-- `fetchUserRepos` from `src/api/github.ts`, with the request count:
pages of size 100 starting at page 1, result truncated by
`repos.slice(0, maxRepos)`. -/
def fetchUserReposC {α : Type} (pages : Nat → HttpResp α) (maxRepos : Nat) :
    Except GitHubApiError (List α × Nat) :=
  (fetchUserReposGo pages maxRepos 100 1 [] 0).map (fun p => (p.1.take maxRepos, p.2))

/-- `fetchUserRepos` proper (the list the caller receives). -/
def fetchUserRepos {α : Type} (pages : Nat → HttpResp α) (maxRepos : Nat) :
    Except GitHubApiError (List α) :=
  (fetchUserReposC pages maxRepos).map (·.1)

/-- The `while` loop of `fetchUserEvents`: accumulate pages while fewer than
`maxEvents` items are collected and the page number is at most 3; an empty
page ends the loop; a page error is caught (`try`/`catch`) and ends the loop,
returning what was already collected.  Also counts the page requests issued. -/
def fetchUserEventsGo {α : Type} (pages : Nat → HttpResp α) (maxEvents : Nat)
    (page : Nat) (acc : List α) (reqs : Nat) : List α × Nat :=
  if acc.length < maxEvents ∧ page ≤ 3 then
    match fetchGitHub (pages page) with
    | .error _ => (acc, reqs + 1)
    | .ok pageEvents =>
      if pageEvents.isEmpty then (acc, reqs + 1)
      else fetchUserEventsGo pages maxEvents (page + 1) (acc ++ pageEvents) (reqs + 1)
  else (acc, reqs)
termination_by 4 - page

/-- `fetchUserEvents` from `src/api/github.ts`, with the request count.
Note the source returns `events` with no final truncation. -/
def fetchUserEventsC {α : Type} (pages : Nat → HttpResp α) (maxEvents : Nat) :
    List α × Nat :=
  fetchUserEventsGo pages maxEvents 1 [] 0

/-- `fetchUserEvents` proper (the list the caller receives). -/
def fetchUserEvents {α : Type} (pages : Nat → HttpResp α) (maxEvents : Nat) : List α :=
  (fetchUserEventsC pages maxEvents).1

/-! ### Dates

Calendar-day dates (the `date` strings of contribution days, parsed by
`new Date(...)`) are modelled as year/month/day triples with JS conventions:
month is 0-11, day is 1-based.  `getTime()` comparisons and millisecond
differences between midnight-aligned dates are modelled through `epochDayN`,
the proleptic-Gregorian day number since 0000-01-01. -/

/-- A calendar date, JS style (month `0`-`11`, day starting at `1`). -/
structure DateYMD where
  year : Nat
  month : Nat
  day : Nat
deriving Repr, DecidableEq

/-- Gregorian leap-year rule (as used by JS `Date`). -/
def isLeapYear (y : Nat) : Bool :=
  (y % 4 == 0 && y % 100 != 0) || y % 400 == 0

/-- Days in JS month `m` (0-11) of year `y`; 31 for out-of-range months. -/
def daysInMonth (y m : Nat) : Nat :=
  match m with
  | 0 => 31
  | 1 => if isLeapYear y then 29 else 28
  | 2 => 31
  | 3 => 30
  | 4 => 31
  | 5 => 30
  | 6 => 31
  | 7 => 31
  | 8 => 30
  | 9 => 31
  | 10 => 30
  | _ => 31

/-- Days of year `y` strictly before JS month `m`. -/
def monthOffset (y m : Nat) : Nat :=
  let f : Nat := if isLeapYear y then 1 else 0
  match m with
  | 0 => 0
  | 1 => 31
  | 2 => 59 + f
  | 3 => 90 + f
  | 4 => 120 + f
  | 5 => 151 + f
  | 6 => 181 + f
  | 7 => 212 + f
  | 8 => 243 + f
  | 9 => 273 + f
  | 10 => 304 + f
  | _ => 334 + f

/-- Leap years in `[0, y)` of the proleptic Gregorian calendar. -/
def leapsBefore (y : Nat) : Nat :=
  ((y + 3) / 4 - (y + 99) / 100) + (y + 399) / 400

/-- Day number of a date, counting 0000-01-01 as day 0. -/
def epochDayN (d : DateYMD) : Nat :=
  365 * d.year + leapsBefore d.year + monthOffset d.year d.month + (d.day - 1)

/-- JS `Date.prototype.getDay` (0 = Sunday): 0000-01-01 is a Saturday. -/
def getDay (d : DateYMD) : Nat :=
  (epochDayN d + 6) % 7

/-- JS `Date` successor (`setDate(getDate() + 1)` with rollover). -/
def nextDay (d : DateYMD) : DateYMD :=
  if d.day < daysInMonth d.year d.month then ⟨d.year, d.month, d.day + 1⟩
  else if d.month < 11 then ⟨d.year, d.month + 1, 1⟩
  else ⟨d.year + 1, 0, 1⟩

/-- Chronological order of dates (`currentDate <= endDate` on JS dates);
for well-formed dates the lexicographic order coincides with comparing
`getTime()`. -/
def dateLe (a b : DateYMD) : Prop :=
  a.year < b.year ∨
    (a.year = b.year ∧ (a.month < b.month ∨ (a.month = b.month ∧ a.day ≤ b.day)))

instance (a b : DateYMD) : Decidable (dateLe a b) := by
  unfold dateLe; infer_instance

/-- Strict chronological order of dates. -/
def dateLt (a b : DateYMD) : Prop :=
  a.year < b.year ∨
    (a.year = b.year ∧ (a.month < b.month ∨ (a.month = b.month ∧ a.day < b.day)))

instance (a b : DateYMD) : Decidable (dateLt a b) := by
  unfold dateLt; infer_instance

/-- A well-formed calendar date. -/
def validDate (d : DateYMD) : Prop :=
  1 ≤ d.day ∧ d.day ≤ daysInMonth d.year d.month ∧ d.month ≤ 11

instance (d : DateYMD) : Decidable (validDate d) := by
  unfold validDate; infer_instance

/-- Termination measure for day-by-day date loops bounded by `e`. -/
def dateMu (e d : DateYMD) : Nat :=
  (e.year + 1 - d.year) * 400 + (11 - d.month) * 32 + (32 - d.day)

theorem daysInMonth_le (y m : Nat) : daysInMonth y m ≤ 31 := by
  unfold daysInMonth
  split <;> first | omega | split <;> omega

theorem daysInMonth_pos (y m : Nat) : 1 ≤ daysInMonth y m := by
  unfold daysInMonth
  split <;> first | omega | split <;> omega

theorem dateMu_nextDay_lt {e d : DateYMD} (h : dateLe d e) :
    dateMu e (nextDay d) < dateMu e d := by
  have h31 := daysInMonth_le d.year d.month
  unfold nextDay dateMu
  rcases h with h | ⟨h, _⟩ <;>
    (split
     · simp only
       omega
     · split <;> simp only <;> omega)

/-- The list of dates from `d` to `e` inclusive, stepping one day at a time
(the iteration order of the `while (currentDate <= endDate)` loops). -/
def datesFromTo (d e : DateYMD) : List DateYMD :=
  if dateLe d e then d :: datesFromTo (nextDay d) e else []
termination_by dateMu e d
decreasing_by exact dateMu_nextDay_lt (by assumption)

/-! ### JS-semantics helpers -/

/-- JS `a?.f || b` on numbers: `undefined` and `0` both fall through to `b`. -/
def orOptNat (a : Option Nat) (b : Nat) : Nat :=
  match a with
  | some x => if x ≠ 0 then x else b
  | none => b

/-- JS `s || null` on a nullable string: `null` and `""` give `null`. -/
def orNullStr (a : Option String) : Option String :=
  match a with
  | some s => if s ≠ "" then some s else none
  | none => none

/-- Stable insertion into a sorted list: an element goes before the first
element it compares `≤` to, so equal elements keep their relative order. -/
def jsInsert {α : Type} (le : α → α → Bool) (a : α) : List α → List α
  | [] => [a]
  | b :: l => if le a b then a :: b :: l else b :: jsInsert le a l

/-- `Array.prototype.sort` with a comparator inducing the total preorder
`le` — a stable sort, hence equal (as lists) to this stable insertion
sort. -/
def jsSortBy {α : Type} (le : α → α → Bool) (l : List α) : List α :=
  l.foldr (jsInsert le) []

/-- A JS object used as a `Record` with insertion-ordered keys. -/
abbrev JsRecord (κ : Type) := List (κ × Nat)

/-- `obj[k] || 0`. -/
def recGet {κ : Type} [BEq κ] (m : JsRecord κ) (k : κ) : Nat :=
  (m.lookup k).getD 0

/-- `obj[k] += v` for a key known to be present (records pre-initialised
with their whole key range). -/
def recBump {κ : Type} [BEq κ] (m : JsRecord κ) (k : κ) (v : Nat) : JsRecord κ :=
  m.map (fun p => if p.1 == k then (p.1, p.2 + v) else p)

/-- `obj[k] = (obj[k] || 0) + 1` on an object built up from `{}`:
new keys are appended in insertion order. -/
def recBumpIns {κ : Type} [BEq κ] (m : JsRecord κ) (k : κ) : JsRecord κ :=
  if m.any (fun p => p.1 == k) then m.map (fun p => if p.1 == k then (p.1, p.2 + 1) else p)
  else m ++ [(k, 1)]

/-- `{0: 0, 1: 0, ..., n-1: 0}` (integer-like keys iterate ascending). -/
def initRec (n : Nat) : JsRecord Nat :=
  (List.range n).map (fun i => (i, 0))

/-- `Set<string>` insertion (`Set.prototype.add`); only the size is read. -/
def setAdd (s : List String) (x : String) : List String :=
  if s.contains x then s else s ++ [x]

/-! ### Data model (`src/types/index.ts`, `src/api/github.ts`) -/

/-- GraphQL `contributionLevel`. -/
inductive ContributionLevel where
  | NONE
  | FIRST_QUARTILE
  | SECOND_QUARTILE
  | THIRD_QUARTILE
  | FOURTH_QUARTILE
deriving Repr, DecidableEq

/-- `ContributionDay`: the `date` string is modelled by its parsed date. -/
structure ContributionDay where
  date : DateYMD
  contributionCount : Nat
  contributionLevel : ContributionLevel
deriving Repr, DecidableEq

structure ContributionWeek where
  contributionDays : List ContributionDay
deriving Repr, DecidableEq

structure ContributionCalendar where
  totalContributions : Nat
  weeks : List ContributionWeek
deriving Repr, DecidableEq

/-- `GitHubRepo`, restricted to the fields the engine reads.  `created_at`
is modelled by the year `getFullYear()` extracts from it, `pushed_at` by its
`getTime()` epoch milliseconds. -/
structure GitHubRepo where
  name : String
  full_name : String
  html_url : String
  description : Option String
  fork : Bool
  created_at_year : Nat
  pushed_at_ms : Nat
  stargazers_count : Nat
  language : Option String
deriving Repr, DecidableEq

/-- The projections the engine reads from `new Date(event.created_at)`. -/
structure EventDate where
  year : Nat
  month : Nat
  dayOfWeek : Nat
  hour : Nat
deriving Repr, DecidableEq

/-- `GitHubEvent`, restricted to the fields the engine reads.
`payloadCommitsLen` is `payload.commits?.length` (present for pushes). -/
structure GitHubEvent where
  type : String
  created_at : EventDate
  repoName : String
  payloadCommitsLen : Option Nat
deriving Repr, DecidableEq

/-- One entry of GraphQL `commitContributionsByRepository` (flattened). -/
structure CommitRepoContribution where
  name : String
  nameWithOwner : String
  url : String
  primaryLanguage : Option String
  stargazerCount : Nat
  description : Option String
  contributionsTotalCount : Nat
deriving Repr, DecidableEq

/-- GraphQL `ContributionData` from `src/api/github.ts`. -/
structure ContributionData where
  totalCommitContributions : Nat
  totalPullRequestContributions : Nat
  totalIssueContributions : Nat
  totalPullRequestReviewContributions : Nat
  totalRepositoriesWithContributedCommits : Nat
  contributionCalendar : ContributionCalendar
  commitContributionsByRepository : List CommitRepoContribution
deriving Repr, DecidableEq

/-- The joined raw bundle `AllGitHubData` (the unused `user` field is
omitted: `calculateInsights` never reads it). -/
structure AllGitHubData where
  repos : List GitHubRepo
  events : List GitHubEvent
  contributionData : Option ContributionData
  contributionCalendar : Option ContributionCalendar
deriving Repr, DecidableEq

structure LanguageStat where
  name : String
  count : Nat
  percentage : ℤ
  color : String
deriving Repr, DecidableEq

structure RepoStat where
  name : String
  fullName : String
  url : String
  stars : Nat
  commits : Nat
  language : Option String
  description : Option String
deriving Repr, DecidableEq

structure MonthlyActivity where
  month : String
  year : Nat
  contributions : Nat
deriving Repr, DecidableEq

structure PersonalityTrait where
  name : String
  value : Nat
  label : String
deriving Repr, DecidableEq

structure DeveloperPersonality where
  title : String
  emoji : String
  description : String
  traits : List PersonalityTrait
deriving Repr, DecidableEq

/-- `LANGUAGE_COLORS` lookup with the `Default` fallback. -/
def LANGUAGE_COLORS : List (String × String) :=
  [("JavaScript", "#f7df1e"), ("TypeScript", "#3178c6"), ("Python", "#3572A5"),
   ("Java", "#b07219"), ("C++", "#f34b7d"), ("C", "#555555"), ("C#", "#178600"),
   ("Go", "#00ADD8"), ("Rust", "#dea584"), ("Ruby", "#701516"), ("PHP", "#4F5D95"),
   ("Swift", "#F05138"), ("Kotlin", "#A97BFF"), ("Dart", "#00B4AB"),
   ("Scala", "#c22d40"), ("Shell", "#89e051"), ("HTML", "#e34c26"),
   ("CSS", "#563d7c"), ("Vue", "#41b883"), ("SCSS", "#c6538c"), ("Lua", "#000080"),
   ("R", "#198CE7"), ("Perl", "#0298c3"), ("Haskell", "#5e5086"),
   ("Elixir", "#6e4a7e"), ("Clojure", "#db5855"), ("Objective_C", "#438eff")]

def getLanguageColor (language : String) : String :=
  (LANGUAGE_COLORS.lookup language).getD "#8b949e"

/-! ### Insights engine (`src/services/insightsEngine.ts`) -/

def DAYS : List String :=
  ["Sunday", "Monday", "Tuesday", "Wednesday", "Thursday", "Friday", "Saturday"]

def MONTHS : List String :=
  ["Jan", "Feb", "Mar", "Apr", "May", "Jun", "Jul", "Aug", "Sep", "Oct", "Nov", "Dec"]

/-- The days of a list of weeks, in order. -/
def flattenWeeks (ws : List ContributionWeek) : List ContributionDay :=
  (ws.map (·.contributionDays)).flatten

/-- All contribution days of a calendar, in week order
(`weeks.flatMap(w => w.contributionDays)`). -/
def flattenCalDays (c : ContributionCalendar) : List ContributionDay :=
  flattenWeeks c.weeks

/-- Sum of all day counts of a calendar (the `calendarCommits` loop). -/
def calendarDaySum (c : ContributionCalendar) : Nat :=
  ((flattenCalDays c).map (·.contributionCount)).sum

/-- The running tallies of the `for (const event of events)` loop of
`calculateBasicStats`. -/
structure EventTally where
  commits : Nat
  prs : Nat
  issues : Nat
  reviews : Nat
  reposSet : List String
deriving Repr, DecidableEq

/-- One iteration of the event-tally loop: `PushEvent` adds
`payload.commits?.length || 1` commits, the other three kinds add one to
their counter; all four add the repo name to the set. -/
def tallyEvent (t : EventTally) (e : GitHubEvent) : EventTally :=
  if e.type = "PushEvent" then
    { t with commits := t.commits + orOptNat e.payloadCommitsLen 1,
             reposSet := setAdd t.reposSet e.repoName }
  else if e.type = "PullRequestEvent" then
    { t with prs := t.prs + 1, reposSet := setAdd t.reposSet e.repoName }
  else if e.type = "IssuesEvent" then
    { t with issues := t.issues + 1, reposSet := setAdd t.reposSet e.repoName }
  else if e.type = "PullRequestReviewEvent" then
    { t with reviews := t.reviews + 1, reposSet := setAdd t.reposSet e.repoName }
  else t

def eventTallies (events : List GitHubEvent) : EventTally :=
  events.foldl tallyEvent ⟨0, 0, 0, 0, []⟩

structure BasicStats where
  totalContributions : Nat
  commits : Nat
  prs : Nat
  issues : Nat
  reviews : Nat
  reposContributedTo : Nat
deriving Repr, DecidableEq

/-- `calculateBasicStats`: prefer the GraphQL summary wholesale when present;
otherwise commits come from the calendar day sum when positive, else the
event tally, and the total prefers the calendar total when nonzero. -/
def calculateBasicStats (events : List GitHubEvent)
    (contributionData : Option ContributionData)
    (contributionCalendar : Option ContributionCalendar) : BasicStats :=
  let calendarCommits :=
    match contributionCalendar with
    | some c => calendarDaySum c
    | none => 0
  let t := eventTallies events
  match contributionData with
  | some cd =>
      ⟨cd.contributionCalendar.totalContributions, cd.totalCommitContributions,
       cd.totalPullRequestContributions, cd.totalIssueContributions,
       cd.totalPullRequestReviewContributions,
       cd.totalRepositoriesWithContributedCommits⟩
  | none =>
      let finalCommits := if 0 < calendarCommits then calendarCommits else t.commits
      ⟨orOptNat (contributionCalendar.map (·.totalContributions))
          (finalCommits + t.prs + t.issues + t.reviews),
       finalCommits, t.prs, t.issues, t.reviews, t.reposSet.length⟩

/-- One repo of the `languageCounts` loop: count it when its language is
truthy (non-null, non-empty) and it is not a fork. -/
def langStep (m : JsRecord String) (r : GitHubRepo) : JsRecord String :=
  match r.language with
  | some lang => if lang ≠ "" ∧ ¬r.fork then recBumpIns m lang else m
  | none => m

/-- `languageCounts` of `calculateLanguageStats`: non-fork repos with a
truthy language, counted per language in first-seen key order. -/
def languageCounts (repos : List GitHubRepo) : JsRecord String :=
  repos.foldl langStep []

structure LanguageStatsResult where
  topLanguages : List LanguageStat
  totalLanguages : Nat
deriving Repr, DecidableEq

/-- `calculateLanguageStats`: map counts to stats with
`percentage = Math.round(count / totalRepos * 100)`, sort descending by
count, keep the top 8; `totalLanguages` is the uncapped distinct count. -/
def calculateLanguageStats (repos : List GitHubRepo) : LanguageStatsResult :=
  let counts := languageCounts repos
  let totalRepos : Nat := (counts.map (·.2)).sum
  let languages :=
    jsSortBy (fun a b => decide (b.count ≤ a.count))
      (counts.map (fun p =>
        { name := p.1, count := p.2,
          percentage := round ((p.2 : ℚ) / (totalRepos : ℚ) * 100),
          color := getLanguageColor p.1 : LanguageStat }))
  ⟨languages.take 8, languages.length⟩

/-- Composite fallback ranking score of `calculateTopRepos`:
`stargazers_count + pushed_at ms / 1e12` (exact rational arithmetic). -/
def repoScore (r : GitHubRepo) : ℚ :=
  (r.stargazers_count : ℚ) + (r.pushed_at_ms : ℚ) / 1000000000000

/-- `calculateTopRepos`: with GraphQL data, rank its per-repo commit
breakdown by commit count, top 6; otherwise rank non-fork repos by
`repoScore`, top 6, with `commits = 0`. -/
def calculateTopRepos (repos : List GitHubRepo)
    (contributionData : Option ContributionData) : List RepoStat :=
  match contributionData with
  | some cd =>
      (jsSortBy (fun a b => decide (b.commits ≤ a.commits))
        (cd.commitContributionsByRepository.map (fun item =>
          { name := item.name, fullName := item.nameWithOwner, url := item.url,
            stars := item.stargazerCount, commits := item.contributionsTotalCount,
            language := orNullStr item.primaryLanguage,
            description := item.description : RepoStat }))).take 6
  | none =>
      ((jsSortBy (fun a b => decide (repoScore b ≤ repoScore a))
          (repos.filter (fun r => !r.fork))).take 6).map
        (fun repo =>
          { name := repo.name, fullName := repo.full_name, url := repo.html_url,
            stars := repo.stargazers_count, commits := 0,
            language := repo.language, description := repo.description : RepoStat })

/-- The `formatHour` helper of `calculateActivityPatterns`. -/
def formatHour (h : Nat) : String :=
  if h = 0 then "12 AM"
  else if h = 12 then "12 PM"
  else if 12 < h then toString (h - 12) ++ " PM"
  else toString h ++ " AM"

/-- First-wins argmax over a record's entries in iteration order
(`maxCount` starts at 0, strict `>` updates). -/
def argmaxRec (m : JsRecord Nat) : Nat :=
  (m.foldl (fun (best : Nat × Nat) p => if best.2 < p.2 then p else best) (0, 0)).1

structure ActivityPatterns where
  mostProductiveDay : String
  mostProductiveHour : Nat
  peakHourRange : String
  activityByDay : JsRecord String
  activityByHour : JsRecord Nat
  monthlyActivity : List MonthlyActivity
deriving Repr, DecidableEq

/-- `calculateActivityPatterns`: hour histogram from events only; day and
month histograms from the calendar (filtered to `year`, weighted by count)
when present, else from events; argmaxes and the formatted peak range. -/
def calculateActivityPatterns (events : List GitHubEvent)
    (calendar : Option ContributionCalendar) (year : Nat) : ActivityPatterns :=
  let hourActivity :=
    events.foldl (fun m e => recBump m e.created_at.hour 1) (initRec 24)
  let dayMonth :=
    match calendar with
    | some cal =>
        (flattenCalDays cal).foldl
          (fun (p : JsRecord Nat × JsRecord Nat) (day : ContributionDay) =>
            if day.date.year = year ∧ 0 < day.contributionCount then
              (recBump p.1 (getDay day.date) day.contributionCount,
               recBump p.2 day.date.month day.contributionCount)
            else p)
          (initRec 7, initRec 12)
    | none =>
        events.foldl
          (fun (p : JsRecord Nat × JsRecord Nat) (e : GitHubEvent) =>
            (recBump p.1 e.created_at.dayOfWeek 1,
             recBump p.2 e.created_at.month 1))
          (initRec 7, initRec 12)
  let mostProductiveDayIdx := argmaxRec dayMonth.1
  let mostProductiveHour := argmaxRec hourActivity
  let peakStart := mostProductiveHour - 1
  let peakEnd := min 23 (mostProductiveHour + 1)
  { mostProductiveDay := DAYS.getD mostProductiveDayIdx "",
    mostProductiveHour := mostProductiveHour,
    peakHourRange := formatHour peakStart ++ " - " ++ formatHour peakEnd,
    activityByDay := dayMonth.1.map (fun (p : Nat × Nat) => (DAYS.getD p.1 "", p.2)),
    activityByHour := hourActivity,
    monthlyActivity := MONTHS.enum.map (fun p =>
      ⟨p.2, year, recGet dayMonth.2 p.1⟩) }

structure Streaks where
  longestStreak : Nat
  currentStreak : Nat
  totalActiveDays : Nat
deriving Repr, DecidableEq

/-- The mutable state of the `calculateStreaks` scan. -/
structure StreakAcc where
  longestStreak : Nat
  currentStreak : Nat
  tempStreak : Nat
  totalActiveDays : Nat
deriving Repr, DecidableEq

/-- One day of the `calculateStreaks` scan.  `today` is the evaluation
instant (`new Date()` truncated to midnight) as an epoch-day number; the
`diffDays <= 1` test keeps a streak current only if the active day is
within one day of it. -/
def streakStep (today : Nat) (s : StreakAcc) (day : ContributionDay) : StreakAcc :=
  if 0 < day.contributionCount then
    { s with
      tempStreak := s.tempStreak + 1,
      totalActiveDays := s.totalActiveDays + 1,
      currentStreak :=
        if (today : ℤ) - (epochDayN day.date : ℤ) ≤ 1 then s.tempStreak + 1
        else s.currentStreak }
  else
    { s with longestStreak := max s.longestStreak s.tempStreak, tempStreak := 0 }

/-- `calculateStreaks`: flatten the calendar days, sort chronologically
(stably, by `getTime()`), scan once, then fold the trailing run into
`longestStreak`. -/
def calculateStreaks (calendar : Option ContributionCalendar) (today : Nat) : Streaks :=
  match calendar with
  | none => ⟨0, 0, 0⟩
  | some c =>
      let allDays :=
        jsSortBy (fun a b => decide (epochDayN a.date ≤ epochDayN b.date))
          (flattenCalDays c)
      let s := allDays.foldl (streakStep today) ⟨0, 0, 0, 0⟩
      ⟨max s.longestStreak s.tempStreak, s.currentStreak, s.totalActiveDays⟩

structure Scores where
  soloScore : Nat
  bugSlayerScore : Nat
deriving Repr, DecidableEq

/-- `calculateScores`:
`soloScore = Math.round(own / Math.max(1, own + forked) * 100)`,
`bugSlayerScore = Math.round(issues / (issues + prs) * 100)` or 50 when no
issue or PR events exist. -/
def calculateScores (events : List GitHubEvent) (repos : List GitHubRepo) : Scores :=
  let ownRepos := repos.filter (fun r => !r.fork)
  let forkedRepos := repos.filter (fun r => r.fork)
  let soloScore :=
    (round ((ownRepos.length : ℚ) /
      ((max 1 (ownRepos.length + forkedRepos.length) : Nat) : ℚ) * 100)).toNat
  let issues := (events.filter (fun e => e.type = "IssuesEvent")).length
  let prs := (events.filter (fun e => e.type = "PullRequestEvent")).length
  let bugSlayerScore :=
    if 0 < issues + prs then
      (round ((issues : ℚ) / ((issues + prs : Nat) : ℚ) * 100)).toNat
    else 50
  ⟨soloScore, bugSlayerScore⟩

/-- The language set of `calculatePersonality`:
`new Set(repos.map(r => r.language).filter(Boolean))` — all repos, forks
included; null and empty languages dropped; only its size is read. -/
def personalityLanguages (repos : List GitHubRepo) : List String :=
  ((repos.filterMap (·.language)).filter (fun s => s ≠ "")).dedup

def isNightOwlHour (h : Nat) : Bool := decide (20 ≤ h) || decide (h < 6)

def isEarlyBirdHour (h : Nat) : Bool := decide (5 ≤ h) && decide (h < 10)

/-- The weekend-warrior test of `calculatePersonality`:
`weekendActivity > weekdayActivity * 0.4` (exact rational `0.4`). -/
def weekendWarriorFlag (activity : ActivityPatterns) : Bool :=
  let weekendActivity :=
    recGet activity.activityByDay "Saturday" + recGet activity.activityByDay "Sunday"
  let weekdayActivity :=
    recGet activity.activityByDay "Monday" + recGet activity.activityByDay "Tuesday" +
    recGet activity.activityByDay "Wednesday" + recGet activity.activityByDay "Thursday" +
    recGet activity.activityByDay "Friday"
  decide ((weekdayActivity : ℚ) * 0.4 < (weekendActivity : ℚ))

/-- `calculatePersonality`: four traits plus the ordered first-match title
rules (nested `if`/`else if` in the source), defaulting to "Code Crafter".
The `events` parameter is unused by the source body as well. -/
def calculatePersonality (_events : List GitHubEvent) (repos : List GitHubRepo)
    (activity : ActivityPatterns) (scores : Scores) : DeveloperPersonality :=
  let isNightOwl := isNightOwlHour activity.mostProductiveHour
  let isEarlyBird := isEarlyBirdHour activity.mostProductiveHour
  let timeTrait : PersonalityTrait :=
    { name := if isNightOwl then "Night Owl"
              else if isEarlyBird then "Early Bird" else "Daytime Coder",
      value := if isNightOwl then 85 else if isEarlyBird then 15 else 50,
      label := if isNightOwl then "🦉 Codes when the moon is out"
               else if isEarlyBird then "🐦 Catches the morning commits"
               else "☀️ Peak performance during sunlight" }
  let languages := personalityLanguages repos
  let isPolyglot := decide (5 ≤ languages.length)
  let focusTrait : PersonalityTrait :=
    { name := if isPolyglot then "Polyglot" else "Specialist",
      value := min 100 (languages.length * 15),
      label := if isPolyglot then "🌍 Master of many languages"
               else "🎯 Deep expertise in few" }
  let isWeekendWarrior := weekendWarriorFlag activity
  let styleTrait : PersonalityTrait :=
    { name := if isWeekendWarrior then "Weekend Warrior" else "Weekday Wonder",
      value := if isWeekendWarrior then 80 else 30,
      label := if isWeekendWarrior then "💪 Codes through weekends"
               else "📅 Balanced work schedule" }
  let isSolo := decide (70 < scores.soloScore)
  let collabTrait : PersonalityTrait :=
    { name := if isSolo then "Solo Coder" else "Team Player",
      value := scores.soloScore,
      label := if isSolo then "🏴‍☠️ Independent creator" else "🤝 Collaborative spirit" }
  let ted : String × String × String :=
    if isNightOwl && isPolyglot then
      ("Nocturnal Polyglot", "🦉",
       "A versatile night owl who masters multiple languages under the moonlight.")
    else if isEarlyBird && isSolo then
      ("Dawn Pioneer", "🌅",
       "An independent creator who catches bugs before anyone else wakes up.")
    else if isWeekendWarrior && decide (60 < scores.bugSlayerScore) then
      ("Weekend Bug Hunter", "🐛",
       "A dedicated problem solver who squashes bugs even on their days off.")
    else if isPolyglot && !isSolo then
      ("Open Source Champion", "🏆",
       "A collaborative polyglot who contributes across the ecosystem.")
    else if isSolo && decide (languages.length ≤ 2) then
      ("Deep Specialist", "🎯",
       "A focused expert who has mastered their chosen technology stack.")
    else if isNightOwl && isWeekendWarrior then
      ("Code Ninja", "🥷",
       "Strikes when least expected, codes through nights and weekends.")
    else
      ("Code Crafter", "👨‍💻", "A balanced developer with diverse skills.")
  { title := ted.1, emoji := ted.2.1, description := ted.2.2,
    traits := [timeTrait, focusTrait, styleTrait, collabTrait] }

/-- The `while (currentDate <= endDate)` loop of `createEmptyCalendar`:
start a new week when the day is a Sunday and the current week is non-empty,
append a zero-count day, and push the last partial week at the end. -/
def emptyCalGo (endDate : DateYMD) (current : DateYMD)
    (weeks : List ContributionWeek) (cur : List ContributionDay) :
    List ContributionWeek :=
  if dateLe current endDate then
    if getDay current = 0 ∧ cur ≠ [] then
      emptyCalGo endDate (nextDay current) (weeks ++ [⟨cur⟩])
        [⟨current, 0, .NONE⟩]
    else
      emptyCalGo endDate (nextDay current) weeks (cur ++ [⟨current, 0, .NONE⟩])
  else if cur ≠ [] then weeks ++ [⟨cur⟩] else weeks
termination_by dateMu endDate current
decreasing_by
  · exact dateMu_nextDay_lt (by assumption)
  · exact dateMu_nextDay_lt (by assumption)

/-- `createEmptyCalendar(year)`: an all-zero calendar from Jan 1 to
Dec 31 of `year`. -/
def createEmptyCalendar (year : Nat) : ContributionCalendar :=
  ⟨0, emptyCalGo ⟨year, 11, 31⟩ ⟨year, 0, 1⟩ [] []⟩

/-- The computed `WrappedInsights` output object. -/
structure WrappedInsights where
  totalContributions : Nat
  totalCommits : Nat
  totalPRs : Nat
  totalIssues : Nat
  totalReviews : Nat
  repositoriesContributedTo : Nat
  newRepositoriesCreated : Nat
  topRepositories : List RepoStat
  topLanguages : List LanguageStat
  totalLanguages : Nat
  mostProductiveDay : String
  mostProductiveHour : Nat
  peakHourRange : String
  activityByDay : JsRecord String
  activityByHour : JsRecord Nat
  monthlyActivity : List MonthlyActivity
  longestStreak : Nat
  currentStreak : Nat
  totalActiveDays : Nat
  soloVsTeamScore : Nat
  bugSlayerScore : Nat
  contributionCalendar : ContributionCalendar
  personality : DeveloperPersonality
deriving Repr, DecidableEq

/-- `calculateInsights(data, year)`.  The implicit evaluation instant read
by `calculateStreaks` via `new Date()` is made an explicit `today`
parameter (epoch-day number). -/
def calculateInsights (data : AllGitHubData) (year : Nat) (today : Nat) :
    WrappedInsights :=
  let yearEvents := data.events.filter (fun e => e.created_at.year = year)
  let yearRepos := data.repos.filter (fun r => r.created_at_year = year)
  let basicStats := calculateBasicStats yearEvents data.contributionData data.contributionCalendar
  let languageStats := calculateLanguageStats data.repos
  let topRepos := calculateTopRepos data.repos data.contributionData
  let activityPatterns := calculateActivityPatterns yearEvents data.contributionCalendar year
  let streaks := calculateStreaks data.contributionCalendar today
  let scores := calculateScores yearEvents data.repos
  let personality := calculatePersonality yearEvents data.repos activityPatterns scores
  let calendar := data.contributionCalendar.getD (createEmptyCalendar year)
  { totalContributions :=
      orOptNat (data.contributionData.map (·.contributionCalendar.totalContributions))
        (orOptNat (data.contributionCalendar.map (·.totalContributions))
          basicStats.totalContributions),
    totalCommits :=
      orOptNat (data.contributionData.map (·.totalCommitContributions)) basicStats.commits,
    totalPRs :=
      orOptNat (data.contributionData.map (·.totalPullRequestContributions)) basicStats.prs,
    totalIssues :=
      orOptNat (data.contributionData.map (·.totalIssueContributions)) basicStats.issues,
    totalReviews :=
      orOptNat (data.contributionData.map (·.totalPullRequestReviewContributions))
        basicStats.reviews,
    repositoriesContributedTo :=
      orOptNat (data.contributionData.map (·.totalRepositoriesWithContributedCommits))
        basicStats.reposContributedTo,
    newRepositoriesCreated := yearRepos.length,
    topRepositories := topRepos,
    topLanguages := languageStats.topLanguages,
    totalLanguages := languageStats.totalLanguages,
    mostProductiveDay := activityPatterns.mostProductiveDay,
    mostProductiveHour := activityPatterns.mostProductiveHour,
    peakHourRange := activityPatterns.peakHourRange,
    activityByDay := activityPatterns.activityByDay,
    activityByHour := activityPatterns.activityByHour,
    monthlyActivity := activityPatterns.monthlyActivity,
    longestStreak := streaks.longestStreak,
    currentStreak := streaks.currentStreak,
    totalActiveDays := streaks.totalActiveDays,
    soloVsTeamScore := scores.soloScore,
    bugSlayerScore := scores.bugSlayerScore,
    contributionCalendar := calendar,
    personality := personality }

/-! ### Spec-side definitions (for refinement comparisons) -/

/-- First-match evaluation of an ordered (condition, result) rule list. -/
def firstMatch {α : Type} (rules : List (Bool × α)) (dflt : α) : α :=
  match rules with
  | [] => dflt
  | (c, r) :: rest => if c then r else firstMatch rest dflt

/-- The personality title rule table exactly as the spec lists it
(six ordered rules, first match wins, neutral default); written from the
spec, to be compared with the source-derived classifier. -/
def specPersonalityTitle (nightOwl earlyBird weekendWarrior polyglot solo : Bool)
    (bugSlayerScore distinctLanguages : Nat) : String :=
  firstMatch
    [(nightOwl && polyglot, "Nocturnal Polyglot"),
     (earlyBird && solo, "Dawn Pioneer"),
     (weekendWarrior && decide (60 < bugSlayerScore), "Weekend Bug Hunter"),
     (polyglot && !solo, "Open Source Champion"),
     (solo && decide (distinctLanguages ≤ 2), "Deep Specialist"),
     (nightOwl && weekendWarrior, "Code Ninja")]
    "Code Crafter"

/-- Concatenation of the bodies of the `n` pages `page, page+1, ...` of a
page oracle, in page order. -/
def concatBodiesFrom {α : Type} (pages : Nat → HttpResp α) (page n : Nat) : List α :=
  match n with
  | 0 => []
  | n + 1 => (pages page).body ++ concatBodiesFrom pages (page + 1) n

/-- Concatenation of the bodies of pages `1..n`, in page order. -/
def concatBodies {α : Type} (pages : Nat → HttpResp α) (n : Nat) : List α :=
  concatBodiesFrom pages 1 n

/-- The flattened day list of an optional calendar (empty when absent). -/
def optCalDays (calendar : Option ContributionCalendar) : List ContributionDay :=
  match calendar with
  | none => []
  | some c => flattenCalDays c

/-! ### Concrete inputs for counterexamples and witnesses -/

/-- A minimal repository record with the given language and fork flag. -/
def exRepo (lang : Option String) (fk : Bool) : GitHubRepo :=
  ⟨"r", "u/r", "https://example.invalid/r", none, fk, 2024, 0, 0, lang⟩

/-- The spec §8 language scenario: two Go and one Rust non-fork repos. -/
def exReposGoRust : List GitHubRepo :=
  [exRepo (some "Go") false, exRepo (some "Go") false, exRepo (some "Rust") false]

/-- Five forked repositories with five distinct languages. -/
def exReposForks5 : List GitHubRepo :=
  [exRepo (some "Go") true, exRepo (some "Rust") true, exRepo (some "Python") true,
   exRepo (some "Java") true, exRepo (some "C") true]

/-- Nine non-fork repositories with nine distinct languages. -/
def exRepos9 : List GitHubRepo :=
  [exRepo (some "Go") false, exRepo (some "Rust") false, exRepo (some "Python") false,
   exRepo (some "Java") false, exRepo (some "C") false, exRepo (some "Ruby") false,
   exRepo (some "PHP") false, exRepo (some "Swift") false, exRepo (some "Lua") false]

/-- A single forked repository (with a language). -/
def exForkOnly : List GitHubRepo := [exRepo (some "Go") true]

/-- An activity pattern whose productive hour is 23 (a night-owl hour). -/
def exActivity23 : ActivityPatterns := ⟨"Sunday", 23, "", [], [], []⟩

/-- Scores with `soloScore = 50` (not solo) and `bugSlayerScore = 70`. -/
def exScores : Scores := ⟨50, 70⟩

/-- A calendar with a single active day, 2024-01-03. -/
def exCalOneDay : ContributionCalendar :=
  ⟨5, [⟨[⟨⟨2024, 0, 3⟩, 5, .FIRST_QUARTILE⟩]⟩]⟩

/-- A bundle whose only content is a calendar with one active day,
2024-01-01 (epoch day 739251). -/
def exBundleOneDay : AllGitHubData :=
  ⟨[], [], none, some ⟨1, [⟨[⟨⟨2024, 0, 1⟩, 1, .FIRST_QUARTILE⟩]⟩]⟩⟩

/-- A bundle with no contribution calendar at all. -/
def exBundleNoCal : AllGitHubData := ⟨[], [], none, none⟩

/-- A push event (1 commit) dated in 2024. -/
def exPushEvent : GitHubEvent := ⟨"PushEvent", ⟨2024, 0, 1, 12⟩, "u/r", some 1⟩

/-- Bundle for C1: no GraphQL summary, a present calendar whose day counts
sum to 0, and one push event carrying 1 commit. -/
def exBundleZeroCal : AllGitHubData :=
  ⟨[], [exPushEvent], none, some ⟨0, [⟨[⟨⟨2024, 0, 1⟩, 0, .NONE⟩]⟩]⟩⟩

/-- An all-zero GraphQL contribution summary. -/
def exZeroSummary : ContributionData := ⟨0, 0, 0, 0, 0, ⟨0, []⟩, []⟩

/-- Bundle for C1: GraphQL summary present with total 0, fallback calendar
present with total 5. -/
def exBundleZeroSummary : AllGitHubData :=
  ⟨[], [], some exZeroSummary, some ⟨5, []⟩⟩

/-- Page oracle: every page succeeds with 100 items. -/
def pagesAll100 : Nat → HttpResp Nat := fun _ => ⟨200, List.replicate 100 0⟩

/-- Page oracle: page 1 has 30 items, every later page is empty. -/
def pagesShort30 : Nat → HttpResp Nat :=
  fun p => if p = 1 then ⟨200, List.replicate 30 0⟩ else ⟨200, []⟩

/-- Page oracle: every page succeeds with no items. -/
def pagesEmpty : Nat → HttpResp Nat := fun _ => ⟨200, []⟩

/-- Page oracle: every page responds 404. -/
def pagesNotFound : Nat → HttpResp Nat := fun _ => ⟨404, []⟩

/-! ## Lemmas

### Stable sort -/

theorem jsInsert_perm {α : Type} (le : α → α → Bool) (a : α) (l : List α) :
    (jsInsert le a l).Perm (a :: l) := by
  induction l with
  | nil => exact List.Perm.refl _
  | cons b l ih =>
    unfold jsInsert
    split
    · exact List.Perm.refl _
    · exact (ih.cons b).trans (List.Perm.swap a b l)

theorem jsSortBy_perm {α : Type} (le : α → α → Bool) (l : List α) :
    (jsSortBy le l).Perm l := by
  induction l with
  | nil => exact List.Perm.refl _
  | cons a l ih => exact (jsInsert_perm le a (jsSortBy le l)).trans (ih.cons a)

theorem jsInsert_pairwise {α : Type} {le : α → α → Bool}
    (htot : ∀ a b, le a b = true ∨ le b a = true)
    (htrans : ∀ a b c, le a b = true → le b c = true → le a c = true)
    (a : α) {l : List α} (h : l.Pairwise (fun x y => le x y = true)) :
    (jsInsert le a l).Pairwise (fun x y => le x y = true) := by
  induction l with
  | nil => simp [jsInsert]
  | cons b l ih =>
    rcases List.pairwise_cons.mp h with ⟨hb, hl⟩
    unfold jsInsert
    split
    · rename_i hab
      refine List.pairwise_cons.mpr ⟨?_, h⟩
      intro x hx
      rcases List.mem_cons.mp hx with rfl | hx
      · exact hab
      · exact htrans a b x hab (hb x hx)
    · rename_i hab
      refine List.pairwise_cons.mpr ⟨?_, ih hl⟩
      intro x hx
      rcases List.mem_cons.mp ((jsInsert_perm le a l).mem_iff.mp hx) with rfl | hx
      · rcases htot x b with h' | h'
        · exact absurd h' hab
        · exact h'
      · exact hb x hx

theorem jsSortBy_pairwise {α : Type} (le : α → α → Bool)
    (htot : ∀ a b, le a b = true ∨ le b a = true)
    (htrans : ∀ a b c, le a b = true → le b c = true → le a c = true)
    (l : List α) : (jsSortBy le l).Pairwise (fun x y => le x y = true) := by
  induction l with
  | nil => simp [jsSortBy]
  | cons a l ih => exact jsInsert_pairwise htot htrans a ih

/-! ## Claim C4 — `soloVsTeamScore` -/

/-- **C4, counterexample.**  The claim says the score is 100 whenever the
repository list has no forks, *including the empty list*; on the empty list
the code computes `round(0 / max(1, 0) * 100) = 0`. -/
theorem claim4_empty_repo_list_scores_zero :
    (calculateScores [] []).soloScore = 0 ∧ (calculateScores [] []).soloScore ≠ 100 := by
  constructor <;> norm_num [calculateScores, round_eq]

/-- **C4 (amended).**  For a nonempty repository list the score is
`round(ownRepoCount / (ownRepoCount + forkedRepoCount) * 100)` (the
`max(1, ·)` guard is invisible there), and it is 100 whenever a nonempty
list contains no forks; the empty list scores 0, not 100. -/
theorem claim4_soloVsTeamScore (events : List GitHubEvent) (repos : List GitHubRepo)
    (hne : repos ≠ []) :
    (calculateScores events repos).soloScore =
      (round (((repos.filter (fun r => !r.fork)).length : ℚ) /
        (((repos.filter (fun r => !r.fork)).length +
          (repos.filter (fun r => r.fork)).length : Nat) : ℚ) * 100)).toNat
    ∧ ((∀ r ∈ repos, r.fork = false) → (calculateScores events repos).soloScore = 100) := by
  have hsplit := @List.length_eq_length_filter_add GitHubRepo repos (fun r => r.fork)
  have hpos : 0 < repos.length := List.length_pos.mpr hne
  have hsum : 1 ≤ (repos.filter (fun r => !r.fork)).length +
      (repos.filter (fun r => r.fork)).length := by
    simp only [Bool.not_eq_true'] at hsplit
    omega
  constructor
  · simp only [calculateScores]
    rw [Nat.max_eq_right hsum]
  · intro hall
    have h1 : repos.filter (fun r => r.fork) = [] :=
      List.filter_eq_nil_iff.mpr (fun a ha => by simp [hall a ha])
    have h2 : repos.filter (fun r => !r.fork) = repos :=
      List.filter_eq_self.mpr (fun a ha => by simp [hall a ha])
    simp only [calculateScores, h1, h2, List.length_nil, Nat.add_zero]
    rw [Nat.max_eq_right hpos]
    rw [div_self (Nat.cast_ne_zero.mpr hpos.ne')]
    norm_num [round_eq]
    decide

/-- **C4, witness.**  One non-fork repository: score 100. -/
theorem claim4_witness :
    (calculateScores [] [exRepo (some "Go") false]).soloScore = 100 :=
  (claim4_soloVsTeamScore [] [exRepo (some "Go") false] (by decide)).2 (by decide)

/-! ## Claim C7 — personality rule order -/

/-- **C7 (confirmed).**  The classifier's title equals the first-match
evaluation of the spec's six-rule table (in the spec's order, defaulting to
"Code Crafter"), and whenever rule 1's condition (night-owl ∧ polyglot) and
rule 4's condition (polyglot ∧ ¬solo) both hold, the title is rule 1's
"Nocturnal Polyglot". -/
theorem claim7_personality_rule_order (events : List GitHubEvent)
    (repos : List GitHubRepo) (activity : ActivityPatterns) (scores : Scores) :
    (calculatePersonality events repos activity scores).title =
      specPersonalityTitle (isNightOwlHour activity.mostProductiveHour)
        (isEarlyBirdHour activity.mostProductiveHour) (weekendWarriorFlag activity)
        (decide (5 ≤ (personalityLanguages repos).length))
        (decide (70 < scores.soloScore)) scores.bugSlayerScore
        (personalityLanguages repos).length
    ∧ (isNightOwlHour activity.mostProductiveHour = true →
        5 ≤ (personalityLanguages repos).length →
        scores.soloScore ≤ 70 →
        (calculatePersonality events repos activity scores).title = "Nocturnal Polyglot") := by
  constructor
  · simp only [calculatePersonality, specPersonalityTitle, firstMatch]
    split_ifs <;> rfl
  · intro h1 h2 h3
    simp [calculatePersonality, h1, h2]

/-- **C7, witness.**  Hour 23, five distinct (forked) languages, solo score
50: rules 1 and 4 both match, the title is rule 1's. -/
theorem claim7_witness :
    (calculatePersonality [] exReposForks5 exActivity23 exScores).title =
      "Nocturnal Polyglot" :=
  (claim7_personality_rule_order [] exReposForks5 exActivity23 exScores).2
    (by decide) (by decide) (by decide)

/-! ## Claim C10 — language breadth: classifier vs `totalLanguages` -/

/-- **C10 (confirmed).**  The classifier's language count (surfaced as the
Polyglot trait value `min(100, count * 15)`) is the number of distinct
truthy languages over *all* repositories, forks included
(`personalityLanguages`); `totalLanguages` is the number of distinct
languages of *non-fork* repositories only (`languageCounts`); on five
forked repositories with five distinct languages the former is 5 and the
latter 0. -/
theorem claim10_language_breadth :
    (∀ (events : List GitHubEvent) (repos : List GitHubRepo)
        (activity : ActivityPatterns) (scores : Scores),
      ((calculatePersonality events repos activity scores).traits[1]?).map (·.value) =
        some (min 100 ((personalityLanguages repos).length * 15)))
    ∧ (∀ repos : List GitHubRepo,
        (calculateLanguageStats repos).totalLanguages = (languageCounts repos).length)
    ∧ (personalityLanguages exReposForks5).length = 5
    ∧ (calculateLanguageStats exReposForks5).totalLanguages = 0
    ∧ (calculateLanguageStats exReposForks5).totalLanguages <
        (personalityLanguages exReposForks5).length := by
  refine ⟨?_, ?_, ?_, ?_, ?_⟩
  · intro events repos activity scores
    simp [calculatePersonality]
  · intro repos
    simp only [calculateLanguageStats]
    rw [(jsSortBy_perm _ _).length_eq, List.length_map]
  · decide
  · decide
  · decide

/-! ## Claim C6 — streak invariants -/

theorem foldl_streak_current_le (today : Nat) (l : List ContributionDay) :
    ∀ s : StreakAcc, s.currentStreak ≤ max s.longestStreak s.tempStreak →
      (l.foldl (streakStep today) s).currentStreak ≤
        max (l.foldl (streakStep today) s).longestStreak
          (l.foldl (streakStep today) s).tempStreak := by
  induction l with
  | nil => exact fun s h => h
  | cons d l ih =>
    intro s h
    simp only [List.foldl_cons]
    apply ih
    unfold streakStep
    split_ifs <;> simp <;> omega

theorem foldl_streak_current_frozen (today : Nat) (l : List ContributionDay) :
    ∀ s : StreakAcc,
      (∀ d ∈ l, 0 < d.contributionCount → 1 < (today : ℤ) - (epochDayN d.date : ℤ)) →
      (l.foldl (streakStep today) s).currentStreak = s.currentStreak := by
  induction l with
  | nil => exact fun s _ => rfl
  | cons d l ih =>
    intro s h
    simp only [List.foldl_cons]
    rw [ih _ (fun x hx hc => h x (List.mem_cons_of_mem d hx) hc)]
    unfold streakStep
    split_ifs with h1 h2
    · exact absurd (h d (List.mem_cons_self d l) h1) (by omega)
    · rfl
    · rfl

/-- **C6 (confirmed).**  For every calendar and evaluation day,
`currentStreak ≤ longestStreak`, and `currentStreak = 0` whenever every
active day (in particular the most recent one) lies more than 1 day before
the evaluation day. -/
theorem claim6_streak_invariants (calendar : Option ContributionCalendar) (today : Nat) :
    (calculateStreaks calendar today).currentStreak ≤
      (calculateStreaks calendar today).longestStreak
    ∧ ((∀ d ∈ optCalDays calendar, 0 < d.contributionCount →
          1 < (today : ℤ) - (epochDayN d.date : ℤ)) →
        (calculateStreaks calendar today).currentStreak = 0) := by
  rcases calendar with _ | c
  · exact ⟨Nat.le_refl 0, fun _ => rfl⟩
  · constructor
    · simp only [calculateStreaks]
      exact foldl_streak_current_le today _ ⟨0, 0, 0, 0⟩ (by simp)
    · intro h
      simp only [calculateStreaks]
      exact foldl_streak_current_frozen today _ ⟨0, 0, 0, 0⟩
        (fun x hx hc => h x ((jsSortBy_perm _ _).mem_iff.mp hx) hc)

/-- **C6, witness.**  A calendar whose only active day is 2024-01-03
(epoch day 739253), evaluated on epoch day 739260: the current streak is
0. -/
theorem claim6_witness :
    (calculateStreaks (some exCalOneDay) 739260).currentStreak = 0 :=
  (claim6_streak_invariants (some exCalOneDay) 739260).2 (by decide)

/-! ## Claim C5 — determinism of `calculateInsights` -/

theorem foldl_streak_time_indep (t1 t2 : Nat) (l : List ContributionDay) :
    ∀ s1 s2 : StreakAcc,
      s1.longestStreak = s2.longestStreak → s1.tempStreak = s2.tempStreak →
      s1.totalActiveDays = s2.totalActiveDays →
      (l.foldl (streakStep t1) s1).longestStreak =
        (l.foldl (streakStep t2) s2).longestStreak
      ∧ (l.foldl (streakStep t1) s1).tempStreak =
          (l.foldl (streakStep t2) s2).tempStreak
      ∧ (l.foldl (streakStep t1) s1).totalActiveDays =
          (l.foldl (streakStep t2) s2).totalActiveDays := by
  induction l with
  | nil => exact fun s1 s2 h1 h2 h3 => ⟨h1, h2, h3⟩
  | cons d l ih =>
    intro s1 s2 h1 h2 h3
    simp only [List.foldl_cons]
    refine ih _ _ ?_ ?_ ?_ <;>
      (unfold streakStep; split_ifs <;> simp [h1, h2, h3])

theorem calculateStreaks_time_indep (calendar : Option ContributionCalendar)
    (t1 t2 : Nat) :
    (calculateStreaks calendar t1).longestStreak =
      (calculateStreaks calendar t2).longestStreak
    ∧ (calculateStreaks calendar t1).totalActiveDays =
        (calculateStreaks calendar t2).totalActiveDays := by
  rcases calendar with _ | c
  · exact ⟨rfl, rfl⟩
  · have h := foldl_streak_time_indep t1 t2
      (jsSortBy (fun a b => decide (epochDayN a.date ≤ epochDayN b.date))
        (flattenCalDays c)) ⟨0, 0, 0, 0⟩ ⟨0, 0, 0, 0⟩ rfl rfl rfl
    simp only [calculateStreaks]
    exact ⟨by rw [h.1, h.2.1], h.2.2⟩

/-- **C5 (amended).**  `calculateInsights` is a pure function of the bundle,
the year, *and the evaluation instant* (the source reads `new Date()` inside
`calculateStreaks`): runs at the same instant agree on every field, and runs
at different instants agree on every field except `currentStreak`. -/
theorem claim5_determinism (data : AllGitHubData) (year : Nat) (t1 t2 : Nat) :
    (t1 = t2 → calculateInsights data year t1 = calculateInsights data year t2)
    ∧ { calculateInsights data year t1 with currentStreak := 0 } =
        { calculateInsights data year t2 with currentStreak := 0 } := by
  refine ⟨fun h => by rw [h], ?_⟩
  have h := calculateStreaks_time_indep data.contributionCalendar t1 t2
  simp only [calculateInsights]
  congr 1
  · exact h.1
  · exact h.2

/-- **C5, witness.**  Two runs at the same instant coincide. -/
theorem claim5_witness :
    calculateInsights exBundleOneDay 2024 739251 =
      calculateInsights exBundleOneDay 2024 739251 :=
  (claim5_determinism exBundleOneDay 2024 739251 739251).1 rfl

/-- **C5, counterexample.**  The same bundle and year evaluated on
2024-01-01 (epoch day 739251) and ten days later disagree on
`currentStreak` (1 vs 0): the output is not a function of (bundle, year)
alone. -/
theorem claim5_two_runs_differ :
    (calculateInsights exBundleOneDay 2024 739251).currentStreak ≠
      (calculateInsights exBundleOneDay 2024 739261).currentStreak := by
  decide

/-! ## Claims C2 and C3 — pagination -/

theorem fetchGitHub_ok_body {α : Type} {resp : HttpResp α} {l : List α}
    (h : fetchGitHub resp = .ok l) : l = resp.body := by
  unfold fetchGitHub at h
  split_ifs at h
  simp_all

theorem fetchGitHub_404 {α : Type} {resp : HttpResp α} (h : resp.status = 404) :
    fetchGitHub resp = .error ⟨"User not found", 404, some "NOT_FOUND"⟩ := by
  simp [fetchGitHub, h]

/-- Any successful repository-loop result is a prefix-extension of the
accumulator by whole page bodies, in page order. -/
theorem fetchUserReposGo_ok {α : Type} (pages : Nat → HttpResp α)
    (maxRepos perPage : Nat) :
    ∀ (page : Nat) (acc : List α) (reqs : Nat),
      ∀ l r, fetchUserReposGo pages maxRepos perPage page acc reqs = .ok (l, r) →
        ∃ n, l = acc ++ concatBodiesFrom pages page n := by
  intro page acc reqs
  induction page, acc, reqs using fetchUserReposGo.induct pages maxRepos perPage with
  | case1 page acc reqs hlt e herr =>
      intro l r h
      rw [fetchUserReposGo.eq_def] at h
      simp [hlt, herr] at h
  | case2 page acc reqs hlt pageRepos hok hemp =>
      intro l r h
      rw [fetchUserReposGo.eq_def] at h
      simp [hlt, hok, hemp] at h
      exact ⟨0, by simp [concatBodiesFrom, h.1.symm]⟩
  | case3 page acc reqs hlt pageRepos hok hemp hshort =>
      intro l r h
      rw [fetchUserReposGo.eq_def] at h
      simp [hlt, hok, hemp, hshort] at h
      exact ⟨1, by
        simp [concatBodiesFrom, ← fetchGitHub_ok_body hok, h.1.symm]⟩
  | case4 page acc reqs hlt pageRepos hok hemp hlong ih =>
      intro l r h
      rw [fetchUserReposGo.eq_def] at h
      simp [hlt, hok, hemp, hlong] at h
      obtain ⟨n, hn⟩ := ih l r h
      refine ⟨n + 1, ?_⟩
      rw [hn]
      simp [concatBodiesFrom, ← fetchGitHub_ok_body hok]
  | case5 page acc reqs hge =>
      intro l r h
      rw [fetchUserReposGo.eq_def] at h
      simp [hge] at h
      exact ⟨0, by simp [concatBodiesFrom, h.1.symm]⟩

/-- The events loop always returns the accumulator extended by at most
`4 - page` whole page bodies, in page order. -/
theorem fetchUserEventsGo_spec {α : Type} (pages : Nat → HttpResp α) (maxEvents : Nat) :
    ∀ (page : Nat) (acc : List α) (reqs : Nat),
      ∃ n, n ≤ 4 - page ∧
        (fetchUserEventsGo pages maxEvents page acc reqs).1 =
          acc ++ concatBodiesFrom pages page n := by
  intro page acc reqs
  induction page, acc, reqs using fetchUserEventsGo.induct pages maxEvents with
  | case1 page acc reqs hc e herr =>
      refine ⟨0, by omega, ?_⟩
      rw [fetchUserEventsGo.eq_def]
      simp [hc, herr, concatBodiesFrom]
  | case2 page acc reqs hc pageEvents hok hemp =>
      refine ⟨0, by omega, ?_⟩
      rw [fetchUserEventsGo.eq_def]
      simp [hc, hok, hemp, concatBodiesFrom]
  | case3 page acc reqs hc pageEvents hok hemp ih =>
      obtain ⟨n, hn, hres⟩ := ih
      refine ⟨n + 1, by omega, ?_⟩
      rw [fetchUserEventsGo.eq_def]
      simp only [hc, hok, hemp, if_true, and_self, ite_true]
      simp [hc, hok, hemp, hres, concatBodiesFrom, ← fetchGitHub_ok_body hok]
  | case4 page acc reqs hc =>
      refine ⟨0, by omega, ?_⟩
      rw [fetchUserEventsGo.eq_def]
      simp [hc, concatBodiesFrom]

/-- **C2, counterexample.**  The events fetcher does not truncate: with
`maxItems = 50` and a first page of 100 items it returns all 100; and a
short (30-item) first page does not end the loop, so a second page request
is issued even though `maxItems = 50` and `perPage = 100`. -/
theorem claim2_events_not_truncated :
    (fetchUserEventsC pagesAll100 50).1.length = 100
    ∧ (fetchUserEventsC pagesShort30 50).2 = 2 := by
  constructor
  · simp [fetchUserEventsC, fetchUserEventsGo, fetchGitHub, pagesAll100]
  · simp [fetchUserEventsC, fetchUserEventsGo, fetchGitHub, pagesShort30]

/-- **C2 (amended).**  The repository fetcher returns the page bodies
concatenated in page order and truncated to `maxItems` (hence at most
`maxItems` items), and with `maxItems = 50`, `perPage = 100` it issues
exactly one page request; the events fetcher returns the *un-truncated*
concatenation of at most 3 page bodies in page order (so it can exceed
`maxItems`); for both fetchers, a first page returning 0 items ends the
loop after that single request with an empty result. -/
theorem claim2_pagination (α : Type) :
    (∀ (pages : Nat → HttpResp α) (maxItems : Nat) (l : List α) (r : Nat),
        fetchUserReposC pages maxItems = .ok (l, r) →
        l.length ≤ maxItems ∧ ∃ n, l = (concatBodies pages n).take maxItems)
    ∧ (∀ (pages : Nat → HttpResp α) (maxItems : Nat),
        ∃ n, n ≤ 3 ∧ fetchUserEvents pages maxItems = concatBodies pages n)
    ∧ (∀ (pages : Nat → HttpResp α) (l : List α) (r : Nat),
        fetchUserReposC pages 50 = .ok (l, r) → r = 1 ∧ l.length ≤ 50)
    ∧ (∀ (pages : Nat → HttpResp α) (maxItems : Nat), 0 < maxItems →
        fetchGitHub (pages 1) = .ok ([] : List α) →
        fetchUserReposC pages maxItems = .ok ([], 1)
        ∧ fetchUserEventsC pages maxItems = ([], 1)) := by
  refine ⟨?_, ?_, ?_, ?_⟩
  · intro pages maxItems l r h
    unfold fetchUserReposC at h
    cases hgo : fetchUserReposGo pages maxItems 100 1 [] 0 with
    | error e => rw [hgo] at h; simp [Except.map] at h
    | ok p =>
        rw [hgo] at h
        simp [Except.map] at h
        obtain ⟨n, hn⟩ := fetchUserReposGo_ok pages maxItems 100 1 [] 0 p.1 p.2 (by
          rw [hgo])
        refine ⟨?_, ⟨n, ?_⟩⟩
        · rw [← h.1]; simp [List.length_take]
        · rw [← h.1, hn]; simp [concatBodies]
  · intro pages maxItems
    obtain ⟨n, hn, hres⟩ := fetchUserEventsGo_spec pages maxItems 1 [] 0
    exact ⟨n, by omega, by simp [fetchUserEvents, fetchUserEventsC, hres, concatBodies]⟩
  · intro pages l r h
    unfold fetchUserReposC at h
    rw [fetchUserReposGo.eq_def] at h
    simp only [List.length_nil] at h
    rw [if_pos (by omega)] at h
    cases hfg : fetchGitHub (pages 1) with
    | error e => rw [hfg] at h; simp [Except.map] at h
    | ok body =>
        rw [hfg] at h
        by_cases hemp : body.isEmpty
        · simp [hemp, Except.map] at h
          exact ⟨h.2.symm, by simp [h.1]⟩
        · by_cases hshort : body.length < 100
          · simp [hemp, hshort, Except.map] at h
            exact ⟨h.2.symm, by rw [← h.1]; simp [List.length_take]⟩
          · simp only [hemp, hshort, if_false, ite_false] at h
            rw [fetchUserReposGo.eq_def] at h
            rw [if_neg (by simp; omega)] at h
            simp [Except.map] at h
            exact ⟨h.2.symm, by rw [← h.1]; simp [List.length_take]⟩
  · intro pages maxItems hpos hok
    constructor
    · unfold fetchUserReposC
      rw [fetchUserReposGo.eq_def]
      rw [if_pos (by simpa using hpos), hok]
      simp [Except.map]
    · unfold fetchUserEventsC
      rw [fetchUserEventsGo.eq_def]
      rw [if_pos (by constructor <;> simp [hpos]), hok]
      simp

/-- **C2, witness.**  The all-empty-pages oracle: both fetchers stop after
the single first-page request and return no items. -/
theorem claim2_witness :
    fetchUserReposC pagesEmpty 50 = .ok (([] : List Nat), 1)
    ∧ fetchUserEventsC pagesEmpty 50 = ([], 1) :=
  (claim2_pagination Nat).2.2.2 pagesEmpty 50 (by omega) rfl

/-- **C3, counterexample.**  A 404 on the *first* events page does not
surface `NotFound`: the `try`/`catch` in `fetchUserEvents` swallows it and
the caller receives an ordinary empty list (after the one failed
request). -/
theorem claim3_events_swallow_first_page_404 :
    fetchUserEventsC pagesNotFound 300 = (([] : List Nat), 1) := by
  simp [fetchUserEventsC, fetchUserEventsGo, fetchGitHub, pagesNotFound]

/-- **C3 (amended).**  A first-page 404 surfaces the `NotFound` error for
the *repository* fetcher (provided at least one item is requested); the
*events* fetcher absorbs failures on every page — including the first — and
returns what was already collected, so a first-page 404 yields `[]` rather
than an error. -/
theorem claim3_first_page_404 (α : Type) :
    (∀ (pages : Nat → HttpResp α) (maxItems : Nat), 0 < maxItems →
        (pages 1).status = 404 →
        fetchUserRepos pages maxItems =
          .error ⟨"User not found", 404, some "NOT_FOUND"⟩)
    ∧ (∀ (pages : Nat → HttpResp α) (maxItems : Nat),
        (pages 1).status = 404 → fetchUserEvents pages maxItems = []) := by
  constructor
  · intro pages maxItems hpos h404
    unfold fetchUserRepos fetchUserReposC
    rw [fetchUserReposGo.eq_def]
    rw [if_pos (by simpa using hpos), fetchGitHub_404 h404]
    simp [Except.map]
  · intro pages maxItems h404
    unfold fetchUserEvents fetchUserEventsC
    rw [fetchUserEventsGo.eq_def]
    by_cases hc : (([] : List α).length < maxItems ∧ 1 ≤ 3)
    · rw [if_pos hc, fetchGitHub_404 h404]
    · rw [if_neg hc]

/-- **C3, witness.**  The always-404 oracle: repositories surface
`NotFound`, events return the empty list. -/
theorem claim3_witness :
    fetchUserRepos pagesNotFound 100 =
      .error ⟨"User not found", 404, some "NOT_FOUND"⟩
    ∧ fetchUserEvents pagesNotFound 300 = ([] : List Nat) :=
  ⟨(claim3_first_page_404 Nat).1 pagesNotFound 100 (by omega) rfl,
   (claim3_first_page_404 Nat).2 pagesNotFound 300 rfl⟩

/-! ## Claim C1 — basic counter precedence -/

/-- **C1, counterexample.**  Zero values fall through the `||` chains:
(a) with no GraphQL summary and a present calendar whose day counts sum to
0, the commit count comes from the events (1), not from the claimed
calendar sum (0); (b) with a GraphQL summary present whose calendar total
is 0 and a fallback calendar whose total is 5, `totalContributions` is 5,
not the summary's 0. -/
theorem claim1_zero_value_fallthrough :
    exBundleZeroCal.contributionData = none
    ∧ exBundleZeroCal.contributionCalendar.map calendarDaySum = some 0
    ∧ (calculateInsights exBundleZeroCal 2024 0).totalCommits = 1
    ∧ exBundleZeroSummary.contributionData.map
        (·.contributionCalendar.totalContributions) = some 0
    ∧ (calculateInsights exBundleZeroSummary 2024 0).totalContributions = 5 := by
  refine ⟨rfl, by decide, by decide, by decide, by decide⟩

/-- **C1 (amended).**  The precedence holds up to JS `||` zero-fallthrough:
when the summary is present, commits/PRs/issues/reviews/repos-contributed
equal its fields, but `totalContributions` falls back to the fallback
calendar's total when the summary's calendar total is 0; when the summary
is absent, commits are the calendar day-count sum only when that sum is
positive (else the event tally), PR/issue/review/repo counts are event
tallies, and `totalContributions` is the calendar total when nonzero, else
the sum of the chosen tallies; with neither source, everything is event
tallies. -/
theorem claim1_basic_counter_precedence (data : AllGitHubData) (year today : Nat) :
    (calculateInsights data year today).totalCommits =
      (match data.contributionData with
       | some cd => cd.totalCommitContributions
       | none =>
         match data.contributionCalendar with
         | some cal =>
             if 0 < calendarDaySum cal then calendarDaySum cal
             else (eventTallies (data.events.filter
               (fun e => e.created_at.year = year))).commits
         | none => (eventTallies (data.events.filter
             (fun e => e.created_at.year = year))).commits)
    ∧ (calculateInsights data year today).totalPRs =
      (match data.contributionData with
       | some cd => cd.totalPullRequestContributions
       | none => (eventTallies (data.events.filter
           (fun e => e.created_at.year = year))).prs)
    ∧ (calculateInsights data year today).totalIssues =
      (match data.contributionData with
       | some cd => cd.totalIssueContributions
       | none => (eventTallies (data.events.filter
           (fun e => e.created_at.year = year))).issues)
    ∧ (calculateInsights data year today).totalReviews =
      (match data.contributionData with
       | some cd => cd.totalPullRequestReviewContributions
       | none => (eventTallies (data.events.filter
           (fun e => e.created_at.year = year))).reviews)
    ∧ (calculateInsights data year today).repositoriesContributedTo =
      (match data.contributionData with
       | some cd => cd.totalRepositoriesWithContributedCommits
       | none => (eventTallies (data.events.filter
           (fun e => e.created_at.year = year))).reposSet.length)
    ∧ (calculateInsights data year today).totalContributions =
      (match data.contributionData, data.contributionCalendar with
       | some cd, some cal =>
           if cd.contributionCalendar.totalContributions ≠ 0 then
             cd.contributionCalendar.totalContributions
           else cal.totalContributions
       | some cd, none => cd.contributionCalendar.totalContributions
       | none, some cal =>
           if cal.totalContributions ≠ 0 then cal.totalContributions
           else
             (if 0 < calendarDaySum cal then calendarDaySum cal
              else (eventTallies (data.events.filter
                (fun e => e.created_at.year = year))).commits) +
             (eventTallies (data.events.filter
               (fun e => e.created_at.year = year))).prs +
             (eventTallies (data.events.filter
               (fun e => e.created_at.year = year))).issues +
             (eventTallies (data.events.filter
               (fun e => e.created_at.year = year))).reviews
       | none, none =>
           (eventTallies (data.events.filter
             (fun e => e.created_at.year = year))).commits +
           (eventTallies (data.events.filter
             (fun e => e.created_at.year = year))).prs +
           (eventTallies (data.events.filter
             (fun e => e.created_at.year = year))).issues +
           (eventTallies (data.events.filter
             (fun e => e.created_at.year = year))).reviews) := by
  rcases hcd : data.contributionData with _ | cd <;>
    rcases hcal : data.contributionCalendar with _ | cal <;>
      simp only [calculateInsights, calculateBasicStats, orOptNat, hcd, hcal,
        Option.map_none', Option.map_some', ite_self] <;>
      refine ⟨?_, ?_, ?_, ?_, ?_, ?_⟩ <;>
        first
          | rfl
          | trivial
          | (split_ifs <;> omega)

/-! ## Claim C8 — language percentages -/

theorem recBumpIns_pos {κ : Type} [BEq κ] (m : JsRecord κ) (k : κ)
    (h : ∀ p ∈ m, 0 < p.2) : ∀ p ∈ recBumpIns m k, 0 < p.2 := by
  unfold recBumpIns
  split
  · intro p hp
    rcases List.mem_map.mp hp with ⟨q, hq, rfl⟩
    split
    · simp
    · exact h q hq
  · intro p hp
    rcases List.mem_append.mp hp with hp | hp
    · exact h p hp
    · simp only [List.mem_singleton] at hp
      simp [hp]

theorem recBumpIns_ne_nil {κ : Type} [BEq κ] (m : JsRecord κ) (k : κ) :
    recBumpIns m k ≠ [] := by
  unfold recBumpIns
  split
  · rename_i hany
    intro hmap
    rw [List.map_eq_nil_iff] at hmap
    subst hmap
    simp at hany
  · simp

theorem langStep_pos (m : JsRecord String) (r : GitHubRepo)
    (h : ∀ p ∈ m, 0 < p.2) : ∀ p ∈ langStep m r, 0 < p.2 := by
  unfold langStep
  split
  · split
    · exact recBumpIns_pos _ _ h
    · exact h
  · exact h

theorem foldl_langStep_pos (repos : List GitHubRepo) :
    ∀ m : JsRecord String, (∀ p ∈ m, 0 < p.2) →
      ∀ p ∈ repos.foldl langStep m, 0 < p.2 := by
  induction repos with
  | nil => exact fun m h => h
  | cons r repos ih => exact fun m h => ih _ (langStep_pos m r h)

theorem languageCounts_pos (repos : List GitHubRepo) :
    ∀ p ∈ languageCounts repos, 0 < p.2 :=
  foldl_langStep_pos repos [] (by simp)

theorem foldl_langStep_ne_nil (repos : List GitHubRepo) :
    ∀ m : JsRecord String,
      ((∃ r ∈ repos, r.fork = false ∧ ∃ lang, r.language = some lang ∧ lang ≠ "")
        ∨ m ≠ []) →
      repos.foldl langStep m ≠ [] := by
  induction repos with
  | nil =>
      intro m h
      rcases h with ⟨r, hr, _⟩ | h
      · exact absurd hr (List.not_mem_nil r)
      · exact h
  | cons x repos ih =>
      intro m h
      simp only [List.foldl_cons]
      rcases h with ⟨r, hr, hfk, lang, hlang, hne⟩ | hm
      · rcases List.mem_cons.mp hr with rfl | hr
        · refine ih _ (Or.inr ?_)
          simp only [langStep, hlang]
          rw [if_pos ⟨hne, by simp [hfk]⟩]
          exact recBumpIns_ne_nil _ _
        · exact ih _ (Or.inl ⟨r, hr, hfk, lang, hlang, hne⟩)
      · refine ih _ (Or.inr ?_)
        unfold langStep
        split
        · split
          · exact recBumpIns_ne_nil _ _
          · exact hm
        · exact hm

theorem languageCounts_ne_nil {repos : List GitHubRepo}
    (h : ∃ r ∈ repos, r.fork = false ∧ ∃ lang, r.language = some lang ∧ lang ≠ "") :
    languageCounts repos ≠ [] :=
  foldl_langStep_ne_nil repos [] (Or.inl h)

theorem list_abs_sum_le (l : List ℚ) : |l.sum| ≤ (l.map (fun x => |x|)).sum := by
  induction l with
  | nil => simp
  | cons a l ih =>
      simp only [List.sum_cons, List.map_cons]
      exact (abs_add a l.sum).trans (add_le_add_left ih _)

theorem list_sum_map_sub (l : List ℕ) (f g : ℕ → ℚ) :
    (l.map f).sum - (l.map g).sum = (l.map (fun c => f c - g c)).sum := by
  induction l with
  | nil => simp
  | cons a l ih =>
      simp only [List.map_cons, List.sum_cons, ← ih]
      ring

theorem list_sum_map_const_half (l : List ℕ) :
    (l.map (fun _ => (1 : ℚ) / 2)).sum = (l.length : ℚ) / 2 := by
  induction l with
  | nil => simp
  | cons a l ih =>
      simp only [List.map_cons, List.sum_cons, ih, List.length_cons]
      push_cast
      ring

theorem list_sum_div_total (l : List ℕ) (N : ℚ) :
    (l.map (fun (c : ℕ) => (c : ℚ) / N * 100)).sum = ((l.sum : ℕ) : ℚ) / N * 100 := by
  induction l with
  | nil => simp
  | cons a l ih =>
      simp only [List.map_cons, List.sum_cons, ih]
      push_cast
      ring

/-- 8 or fewer exact shares of a positive total, each rounded half-up,
sum to within 4 of 100. -/
theorem pct_sum_bound (cs : List ℕ) (hne : cs ≠ []) (hpos : ∀ c ∈ cs, 0 < c)
    (hlen : cs.length ≤ 8) :
    |(cs.map (fun (c : ℕ) => round ((c : ℚ) / ((cs.sum : ℕ) : ℚ) * 100))).sum - 100| ≤ 4 := by
  have hN : 0 < cs.sum := by
    rcases cs with _ | ⟨a, l⟩
    · exact absurd rfl hne
    · have := hpos a (List.mem_cons_self a l)
      simp only [List.sum_cons]
      omega
  have hN0 : ((cs.sum : ℕ) : ℚ) ≠ 0 := Nat.cast_ne_zero.mpr hN.ne'
  have hq : (cs.map (fun (c : ℕ) => (c : ℚ) / ((cs.sum : ℕ) : ℚ) * 100)).sum = 100 := by
    rw [list_sum_div_total, div_self hN0]
    norm_num
  set S : ℤ := (cs.map (fun (c : ℕ) =>
    round ((c : ℚ) / ((cs.sum : ℕ) : ℚ) * 100))).sum with hS
  have hSQ : ((S : ℤ) : ℚ) = (cs.map (fun (c : ℕ) =>
      ((round ((c : ℚ) / ((cs.sum : ℕ) : ℚ) * 100) : ℤ) : ℚ))).sum := by
    rw [hS, Int.cast_list_sum, List.map_map]
    rfl
  have key0 : |(cs.map (fun (c : ℕ) =>
      ((round ((c : ℚ) / ((cs.sum : ℕ) : ℚ) * 100) : ℤ) : ℚ))).sum -
      (cs.map (fun (c : ℕ) => (c : ℚ) / ((cs.sum : ℕ) : ℚ) * 100)).sum| ≤
      (cs.length : ℚ) / 2 := by
    rw [list_sum_map_sub]
    refine (list_abs_sum_le _).trans ?_
    rw [List.map_map]
    refine (List.sum_le_sum ?_).trans (le_of_eq (list_sum_map_const_half cs))
    intro c _
    simp only [Function.comp_apply]
    rw [abs_sub_comm]
    exact abs_sub_round _
  rw [hq] at key0
  rw [← hSQ] at key0
  have h4 : |((S : ℤ) : ℚ) - 100| ≤ 4 := by
    refine key0.trans ?_
    have h8 : (cs.length : ℚ) ≤ 8 := by exact_mod_cast hlen
    linarith
  exact_mod_cast h4

/-- **C8, counterexample.**  (a) A list of one (forked) repository is a
nonempty repository list, yet `topLanguages` is empty and its percentages
sum to 0, not ≈ 100; (b) nine one-repo languages give nine 11% entries of
which only the top 8 are kept: the reported percentages sum to 88, off by
12 — beyond any per-entry rounding slack. -/
theorem claim8_sum_counterexample :
    exForkOnly ≠ []
    ∧ (calculateLanguageStats exForkOnly).topLanguages = []
    ∧ (((calculateLanguageStats exForkOnly).topLanguages.map (·.percentage)).sum = 0)
    ∧ (((calculateLanguageStats exRepos9).topLanguages.map (·.percentage)).sum = 88) := by
  refine ⟨by decide, by decide, by decide, ?_⟩
  have h9 : languageCounts exRepos9 =
      [("Go", 1), ("Rust", 1), ("Python", 1), ("Java", 1), ("C", 1), ("Ruby", 1),
       ("PHP", 1), ("Swift", 1), ("Lua", 1)] := by decide
  simp only [calculateLanguageStats, h9]
  norm_num [jsSortBy, jsInsert, round_eq]

/-- **C8 (amended).**  When at least one non-fork repository has a truthy
language and there are at most 8 distinct counted languages (so the top-8
cap does not truncate), the `topLanguages` percentages sum to within 4 of
100 (each of the ≤ 8 entries rounds with error ≤ ½); for every repository
list whatsoever, `topLanguages` is sorted non-increasingly by count. -/
theorem claim8_language_percentages (repos : List GitHubRepo) :
    ((∃ r ∈ repos, r.fork = false ∧ ∃ lang, r.language = some lang ∧ lang ≠ "") →
      (languageCounts repos).length ≤ 8 →
      |((calculateLanguageStats repos).topLanguages.map (·.percentage)).sum - 100| ≤ 4)
    ∧ List.Pairwise (fun a b : LanguageStat => b.count ≤ a.count)
        (calculateLanguageStats repos).topLanguages := by
  constructor
  · intro h1 h2
    simp only [calculateLanguageStats]
    rw [List.take_of_length_le (by
      rw [(jsSortBy_perm _ _).length_eq, List.length_map]; exact h2)]
    rw [((jsSortBy_perm (fun a b : LanguageStat => decide (b.count ≤ a.count))
      ((languageCounts repos).map (fun p : String × Nat =>
        ({ name := p.1, count := p.2,
           percentage := round ((p.2 : ℚ) /
             (((((languageCounts repos).map (·.2)).sum : ℕ)) : ℚ) * 100),
           color := getLanguageColor p.1 : LanguageStat })))).map
      (fun s : LanguageStat => s.percentage)).sum_eq]
    rw [List.map_map]
    have hmaps : (languageCounts repos).map
        ((fun s : LanguageStat => s.percentage) ∘ (fun p : String × Nat =>
          ({ name := p.1, count := p.2,
             percentage := round ((p.2 : ℚ) /
               (((((languageCounts repos).map (·.2)).sum : ℕ)) : ℚ) * 100),
             color := getLanguageColor p.1 : LanguageStat }))) =
        ((languageCounts repos).map (·.2)).map (fun (c : ℕ) =>
          round ((c : ℚ) / (((((languageCounts repos).map (·.2)).sum : ℕ)) : ℚ) * 100)) := by
      rw [List.map_map]
      rfl
    rw [hmaps]
    refine pct_sum_bound _ ?_ ?_ (by rw [List.length_map]; exact h2)
    · rw [Ne, List.map_eq_nil_iff]
      exact languageCounts_ne_nil h1
    · intro c hc
      rcases List.mem_map.mp hc with ⟨p, hp, rfl⟩
      exact languageCounts_pos repos p hp
  · simp only [calculateLanguageStats]
    have hp := jsSortBy_pairwise
      (fun a b : LanguageStat => decide (b.count ≤ a.count))
      (fun a b => by
        rcases Nat.le_total b.count a.count with h | h
        · exact Or.inl (by simpa using h)
        · exact Or.inr (by simpa using h))
      (fun a b c hab hbc => by
        simp only [decide_eq_true_eq] at hab hbc ⊢
        omega)
      ((languageCounts repos).map (fun p : String × Nat =>
        ({ name := p.1, count := p.2,
           percentage := round ((p.2 : ℚ) /
             (((((languageCounts repos).map (·.2)).sum : ℕ)) : ℚ) * 100),
           color := getLanguageColor p.1 : LanguageStat })))
    exact (hp.imp (fun h => by simpa using h)).sublist (List.take_sublist _ _)

/-- **C8, witness.**  The spec's Go/Go/Rust scenario: percentages 67 and 33
sum to 100 and the list is sorted by count. -/
theorem claim8_witness :
    |((calculateLanguageStats exReposGoRust).topLanguages.map (·.percentage)).sum - 100| ≤ 4
    ∧ List.Pairwise (fun a b : LanguageStat => b.count ≤ a.count)
        (calculateLanguageStats exReposGoRust).topLanguages :=
  ⟨(claim8_language_percentages exReposGoRust).1 (by decide) (by decide),
   (claim8_language_percentages exReposGoRust).2⟩

/-! ## Claim C9 — the synthesized empty calendar

Date order facts. -/

theorem dateLe_refl (d : DateYMD) : dateLe d d := by
  unfold dateLe
  omega

theorem dateLe_trans {a b c : DateYMD} (h1 : dateLe a b) (h2 : dateLe b c) :
    dateLe a c := by
  unfold dateLe at *
  omega

theorem dateLt_nextDay (d : DateYMD) : dateLt d (nextDay d) := by
  unfold nextDay dateLt
  split_ifs <;> simp

theorem dateLe_of_lt {a b : DateYMD} (h : dateLt a b) : dateLe a b := by
  unfold dateLt at h
  unfold dateLe
  omega

theorem not_dateLe_of_lt {a b : DateYMD} (h : dateLt a b) : ¬ dateLe b a := by
  unfold dateLt at h
  unfold dateLe
  omega

theorem dateLt_of_le_ne {a b : DateYMD} (h : dateLe a b) (hne : a ≠ b) :
    dateLt a b := by
  obtain ⟨ay, am, ad⟩ := a
  obtain ⟨by', bm, bd⟩ := b
  have hne' : ¬(ay = by' ∧ am = bm ∧ ad = bd) := by
    rintro ⟨rfl, rfl, rfl⟩
    exact hne rfl
  have h' : ay < by' ∨ (ay = by' ∧ (am < bm ∨ (am = bm ∧ ad ≤ bd))) := h
  show ay < by' ∨ (ay = by' ∧ (am < bm ∨ (am = bm ∧ ad < bd)))
  omega

theorem nextDay_valid {d : DateYMD} (h : validDate d) : validDate (nextDay d) := by
  have hp := daysInMonth_pos (d.year + 1) 0
  have hp2 := daysInMonth_pos d.year (d.month + 1)
  obtain ⟨h1, h2, h3⟩ := h
  unfold nextDay
  split_ifs with ha hb
  · exact ⟨Nat.succ_le_succ (Nat.zero_le _), Nat.succ_le_of_lt ha, h3⟩
  · exact ⟨Nat.le_refl 1, hp2, Nat.succ_le_of_lt hb⟩
  · exact ⟨Nat.le_refl 1, hp, Nat.zero_le 11⟩

theorem nextDay_le_of_lt {d e : DateYMD} (hd : validDate d) (he : validDate e)
    (h : dateLt d e) : dateLe (nextDay d) e := by
  obtain ⟨dy, dm, dd⟩ := d
  obtain ⟨ey, em, ed⟩ := e
  obtain ⟨hd1, hd2, hd3⟩ := hd
  obtain ⟨he1, he2, he3⟩ := he
  simp only at hd1 hd2 hd3 he1 he2 he3
  unfold dateLt at h
  simp only at h
  unfold nextDay
  simp only
  rcases h with hy | ⟨hy, hm | ⟨hm, hdd⟩⟩
  · split_ifs with ha hb
    · exact Or.inl hy
    · exact Or.inl hy
    · by_cases hyy : dy + 1 < ey
      · exact Or.inl hyy
      · refine Or.inr ⟨show dy + 1 = ey by omega, ?_⟩
        by_cases hm0 : 0 < em
        · exact Or.inl hm0
        · exact Or.inr ⟨show (0 : Nat) = em by omega, he1⟩
  · subst hy
    split_ifs with ha hb
    · exact Or.inr ⟨rfl, Or.inl hm⟩
    · by_cases hmm : dm + 1 < em
      · exact Or.inr ⟨rfl, Or.inl hmm⟩
      · exact Or.inr ⟨rfl, Or.inr ⟨show dm + 1 = em by omega, he1⟩⟩
    · exact absurd (by omega : dm < 11) hb
  · subst hy
    subst hm
    split_ifs with ha hb
    · exact Or.inr ⟨rfl, Or.inr ⟨rfl, show dd + 1 ≤ ed by omega⟩⟩
    · exact absurd (by omega : dd < daysInMonth dy dm) ha
    · exact absurd (by omega : dd < daysInMonth dy dm) ha

/-! Unfolding equations of `datesFromTo`. -/

theorem datesFromTo_cons {d e : DateYMD} (h : dateLe d e) :
    datesFromTo d e = d :: datesFromTo (nextDay d) e := by
  rw [datesFromTo.eq_def, if_pos h]

theorem datesFromTo_nil {d e : DateYMD} (h : ¬ dateLe d e) :
    datesFromTo d e = [] := by
  rw [datesFromTo.eq_def, if_neg h]

theorem datesFromTo_chain (d e : DateYMD) :
    List.Chain' (fun a b => b = nextDay a) (datesFromTo d e) := by
  induction d, e using datesFromTo.induct with
  | case1 d e h ih =>
      rw [datesFromTo_cons h, List.chain'_cons']
      refine ⟨?_, ih⟩
      intro x hx
      by_cases h2 : dateLe (nextDay d) e
      · rw [datesFromTo_cons h2] at hx
        simp only [List.head?_cons, Option.mem_def, Option.some.injEq] at hx
        exact hx.symm
      · rw [datesFromTo_nil h2] at hx
        simp at hx
  | case2 d e h =>
      rw [datesFromTo_nil h]
      exact List.chain'_nil

theorem datesFromTo_mem_between (d e : DateYMD) :
    ∀ x ∈ datesFromTo d e, dateLe d x ∧ dateLe x e := by
  induction d, e using datesFromTo.induct with
  | case1 d e h ih =>
      rw [datesFromTo_cons h]
      intro x hx
      rcases List.mem_cons.mp hx with rfl | hx
      · exact ⟨dateLe_refl x, h⟩
      · obtain ⟨h1, h2⟩ := ih x hx
        exact ⟨dateLe_trans (dateLe_of_lt (dateLt_nextDay d)) h1, h2⟩
  | case2 d e h =>
      rw [datesFromTo_nil h]
      intro x hx
      exact absurd hx (List.not_mem_nil x)

theorem datesFromTo_mem_valid (d e : DateYMD) :
    validDate d → ∀ x ∈ datesFromTo d e, validDate x := by
  induction d, e using datesFromTo.induct with
  | case1 d e h ih =>
      intro hd x hx
      rw [datesFromTo_cons h] at hx
      rcases List.mem_cons.mp hx with rfl | hx
      · exact hd
      · exact ih (nextDay_valid hd) x hx
  | case2 d e h =>
      intro hd x hx
      rw [datesFromTo_nil h] at hx
      exact absurd hx (List.not_mem_nil x)

theorem datesFromTo_getLast (d e : DateYMD) :
    validDate d → validDate e → dateLe d e →
    (datesFromTo d e).getLast? = some e := by
  induction d, e using datesFromTo.induct with
  | case1 d e h ih =>
      intro hd he _
      rw [datesFromTo_cons h]
      by_cases heq : d = e
      · subst heq
        rw [datesFromTo_nil (not_dateLe_of_lt (dateLt_nextDay d))]
        rfl
      · have hlt : dateLt d e := dateLt_of_le_ne h heq
        have h2 : dateLe (nextDay d) e := nextDay_le_of_lt hd he hlt
        have hrest := ih (nextDay_valid hd) he h2
        rw [datesFromTo_cons h2] at hrest ⊢
        rw [List.getLast?_cons_cons]
        exact hrest
  | case2 d e h =>
      intro _ _ hle
      exact absurd hle h

theorem flattenWeeks_append_week (ws : List ContributionWeek)
    (cur : List ContributionDay) :
    flattenWeeks (ws ++ [⟨cur⟩]) = flattenWeeks ws ++ cur := by
  simp [flattenWeeks]

/-- The week-bucketing loop neither drops nor duplicates days: its flattened
output is the already-flattened prefix followed by one zero-count day per
remaining date, in date order. -/
theorem emptyCalGo_flatten (e : DateYMD) :
    ∀ (d : DateYMD) (ws : List ContributionWeek) (cur : List ContributionDay),
      flattenWeeks (emptyCalGo e d ws cur) =
        flattenWeeks ws ++ cur ++
          (datesFromTo d e).map (fun x => ⟨x, 0, .NONE⟩) := by
  intro d ws cur
  induction d, ws, cur using emptyCalGo.induct e with
  | case1 d ws cur h hbreak ih =>
      rw [emptyCalGo.eq_def, if_pos h, if_pos hbreak, ih, datesFromTo_cons h]
      rw [flattenWeeks_append_week]
      simp
  | case2 d ws cur h hbreak ih =>
      rw [emptyCalGo.eq_def, if_pos h, if_neg hbreak, ih, datesFromTo_cons h]
      simp
  | case3 d ws cur h hcur =>
      rw [emptyCalGo.eq_def, if_neg h, if_pos hcur, datesFromTo_nil h]
      rw [flattenWeeks_append_week]
      simp
  | case4 d ws cur h hcur =>
      rw [emptyCalGo.eq_def, if_neg h, if_neg hcur, datesFromTo_nil h]
      simp only [List.map_nil, List.append_nil]
      simp at hcur
      rw [hcur]
      simp

/-- **C9 (confirmed).**  `createEmptyCalendar year` has total 0, and its
flattened days are exactly one zero-count day per date from Jan 1 through
Dec 31 of `year`, consecutively (`head?` Jan 1, `getLast?` Dec 31,
`Chain'`-consecutive, all in `year` and well-formed); and whenever the
bundle has no contribution calendar, `calculateInsights` carries the
synthesized calendar — the output field is never absent. -/
theorem claim9_empty_calendar (year : Nat) (data : AllGitHubData) (today : Nat) :
    (createEmptyCalendar year).totalContributions = 0
    ∧ flattenCalDays (createEmptyCalendar year) =
        (datesFromTo ⟨year, 0, 1⟩ ⟨year, 11, 31⟩).map (fun x => ⟨x, 0, .NONE⟩)
    ∧ (∀ day ∈ flattenCalDays (createEmptyCalendar year), day.contributionCount = 0)
    ∧ (datesFromTo ⟨year, 0, 1⟩ ⟨year, 11, 31⟩).head? = some ⟨year, 0, 1⟩
    ∧ (datesFromTo ⟨year, 0, 1⟩ ⟨year, 11, 31⟩).getLast? = some ⟨year, 11, 31⟩
    ∧ (∀ x ∈ datesFromTo ⟨year, 0, 1⟩ ⟨year, 11, 31⟩, x.year = year ∧ validDate x)
    ∧ List.Chain' (fun a b => b = nextDay a) (datesFromTo ⟨year, 0, 1⟩ ⟨year, 11, 31⟩)
    ∧ (data.contributionCalendar = none →
        (calculateInsights data year today).contributionCalendar =
          createEmptyCalendar year) := by
  have hle : dateLe ⟨year, 0, 1⟩ ⟨year, 11, 31⟩ := by
    unfold dateLe
    dsimp only
    omega
  have hv1 : validDate ⟨year, 0, 1⟩ := by
    unfold validDate
    dsimp only
    refine ⟨by omega, ?_, by omega⟩
    simp [daysInMonth]
  have hv2 : validDate ⟨year, 11, 31⟩ := by
    unfold validDate
    dsimp only
    refine ⟨by omega, ?_, by omega⟩
    simp [daysInMonth]
  have hflat : flattenCalDays (createEmptyCalendar year) =
      (datesFromTo ⟨year, 0, 1⟩ ⟨year, 11, 31⟩).map (fun x => ⟨x, 0, .NONE⟩) := by
    show flattenWeeks (emptyCalGo ⟨year, 11, 31⟩ ⟨year, 0, 1⟩ [] []) = _
    rw [emptyCalGo_flatten]
    simp [flattenWeeks]
  refine ⟨rfl, hflat, ?_, ?_, ?_, ?_, datesFromTo_chain _ _, ?_⟩
  · intro day hday
    rw [hflat] at hday
    rcases List.mem_map.mp hday with ⟨x, _, rfl⟩
    rfl
  · rw [datesFromTo_cons hle]
    rfl
  · exact datesFromTo_getLast _ _ hv1 hv2 hle
  · intro x hx
    obtain ⟨h1, h2⟩ := datesFromTo_mem_between _ _ x hx
    refine ⟨?_, datesFromTo_mem_valid _ _ hv1 x hx⟩
    obtain ⟨xy, xm, xd⟩ := x
    unfold dateLe at h1 h2
    simp only at h1 h2 ⊢
    omega
  · intro h
    simp [calculateInsights, h]

/-- **C9, witness.**  A bundle with no calendar: the output carries
`createEmptyCalendar 2024`. -/
theorem claim9_witness :
    (calculateInsights exBundleNoCal 2024 0).contributionCalendar =
      createEmptyCalendar 2024 :=
  (claim9_empty_calendar 2024 exBundleNoCal 0).2.2.2.2.2.2.2 rfl

end GitWrapped
